import Mathlib

/-
Shallow embedding of the network-namespace discovery core of the
`networker` repository, file `src/daemons/kernel/src/sys/netns.rs`.

Filesystem and syscall effects are modelled as explicit environments:
`stat` becomes a function from path strings to optional stat results,
directory scans become an optional list of entry names, file opens become
a function from path strings to `Except`, and the namespace-switch
syscalls `unshare`/`setns` are recorded in an explicit trace.
-/

namespace Networker

/-- Path constant `SELF_NETNS_PATH` from netns.rs line 27. -/
def SELF_NETNS_PATH : String := "/proc/self/ns/net"

/-- Path constant `DEAULT_NETNS_PATH` (source spelling kept) from netns.rs line 28. -/
def DEAULT_NETNS_PATH : String := "/proc/1/ns/net"

/-- Path constant `NETNS_PATH` from netns.rs line 29. -/
def NETNS_PATH : String := "/run/netns"

/-- Unix path separator. -/
def SLASH : String := "/"

/-- Unix path separator as a character. -/
def slashChar : Char := '/'

/-- The current-directory entry name skipped by `Netns::list`. -/
def DOT : String := "."

/-- The parent-directory entry name skipped by `Netns::list`. -/
def DOTDOT : String := ".."

/-- `nix::libc::IN_ISDIR`, the inotify event-mask bit the code compares
against `st_mode` (netns.rs lines 81 and 226). -/
def IN_ISDIR : Nat := 0x40000000

/-- Modelled from POSIX stat(2): the file-type mask of `st_mode`.
Not part of the repository; used only to state what a real directory's
mode looks like. -/
def S_IFMT : Nat := 0o170000

/-- Modelled from POSIX stat(2): the directory file type in `st_mode`. -/
def S_IFDIR : Nat := 0o040000

/-- Modelled from POSIX stat(2): `m` is the `st_mode` of a directory. -/
def isRealDirMode (m : Nat) : Bool := m &&& S_IFMT == S_IFDIR

/-- Result of a successful `stat` call: the fields netns.rs reads. -/
structure StatResult where
  st_ino : Nat
  st_mode : Nat
deriving DecidableEq

/-- Environment for `nix::sys::stat::stat`: `none` models a failed call. -/
abbrev StatEnv := String → Option StatResult

/-- A path is absolute on Unix when it starts with a slash, mirroring
`std::path::Path::is_absolute`. -/
def isAbsolutePath (piece : String) : Bool :=
  match piece.data with
  | [] => false
  | c :: _ => c = slashChar

/-- `Path::join` as used by netns.rs: joining an absolute path replaces
the base, otherwise the piece is appended after a separator. -/
def pathJoin (base piece : String) : String :=
  if isAbsolutePath piece then piece else base ++ SLASH ++ piece

/-- The `Netns` enum from netns.rs lines 41-46. -/
inductive Netns where
  | Default : Netns
  | Named : String → Netns
deriving DecidableEq

/-- One iteration of the entry loop in `Netns::list` (netns.rs lines 66-88):
skips `.` and `..`, skips entries whose `stat` fails, skips entries whose
mode matches `IN_ISDIR` or whose inode equals the default namespace's
inode, and otherwise produces `Named` of the full joined path. -/
def Netns.scanEntry (defaultStat : StatResult) (st : StatEnv) (name : String) :
    Option Netns :=
  if name = DOT ∨ name = DOTDOT then none
  else
    match st (pathJoin NETNS_PATH name) with
    | none => none
    | some nsStat =>
      if nsStat.st_mode &&& IN_ISDIR = IN_ISDIR ∨ nsStat.st_ino = defaultStat.st_ino
      then none
      else some (Netns.Named (pathJoin NETNS_PATH name))

/-- `Netns::list` (netns.rs lines 53-91). `dirEntries = none` models
`Dir::open` failing; entries whose read fails are modelled as absent
from the list. The result always begins with `Netns.Default`. -/
def Netns.list (st : StatEnv) (dirEntries : Option (List String)) : List Netns :=
  match st DEAULT_NETNS_PATH with
  | none => [Netns.Default]
  | some defaultStat =>
    match dirEntries with
    | none => [Netns.Default]
    | some entries =>
      Netns.Default :: entries.filterMap (Netns.scanEntry defaultStat st)

/-- `Netns::path` (netns.rs lines 93-98). -/
def Netns.path : Netns → String
  | Netns.Default => DEAULT_NETNS_PATH
  | Netns.Named name => pathJoin NETNS_PATH name

/-- Error kinds of `std::io::Error` that matter here. -/
inductive IoErrorKind where
  | notFound
  | otherErr
deriving DecidableEq

/-- The `Error` enum of netns.rs lines 31-39: `IoErr`, `NixErr` and
`NotifyErr` model the `Io`, `Nix` and `Notify` variants. -/
inductive Error where
  | IoErr : IoErrorKind → Error
  | NixErr : Error
  | NotifyErr : Error
deriving DecidableEq

/-- The namespace-switch syscalls issued by `Netns::enter`. -/
inductive Syscall where
  | unshareNewNet
  | setnsNewNet
deriving DecidableEq

/-- `Netns::enter` (netns.rs lines 104-112): opens the process's own
namespace handle, then the target handle, then issues `unshare` and
`setns`. The second component is the trace of namespace-switch syscalls
actually executed; an empty trace means the process namespace was left
untouched. `openFile` models `File::open`; `unshareOk`/`setnsOk` model
the syscalls' outcomes. -/
def Netns.enter (openFile : String → Except IoErrorKind Unit)
    (unshareOk setnsOk : Bool) (n : Netns) : Except Error Unit × List Syscall :=
  match openFile SELF_NETNS_PATH with
  | Except.error e => (Except.error (Error.IoErr e), [])
  | Except.ok _ =>
    match openFile n.path with
    | Except.error e => (Except.error (Error.IoErr e), [])
    | Except.ok _ =>
      if unshareOk = false then (Except.error Error.NixErr, [Syscall.unshareNewNet])
      else if setnsOk = false then
        (Except.error Error.NixErr, [Syscall.unshareNewNet, Syscall.setnsNewNet])
      else (Except.ok (), [Syscall.unshareNewNet, Syscall.setnsNewNet])

/-- Modulus of Rust's 64-bit `usize` arithmetic. -/
def USIZE_MOD : Nat := 2 ^ 64

/-- `usize::wrapping_add(1)` on the modification counter. -/
def wrappingAdd1 (c : Nat) : Nat := (c + 1) % USIZE_MOD

/-- The watcher's guarded state: the tuple `(HashSet<Netns>, usize)` of
`NetnsWatcher.list` (netns.rs line 137). `set` models the hash set,
`counter` the modification index. -/
structure WatcherState where
  set : Finset Netns
  counter : Nat
deriving DecidableEq

/-- One iteration of the loop in `NetnsWatcher::insert` (netns.rs lines
221-239): stat the path; skip on stat failure, on the `IN_ISDIR` mode test,
or when the inode equals the captured default inode; otherwise insert
`Named(path)`, raising the changed flag when the set gained a member. -/
def NetnsWatcher.insertStep (defaultIno : Nat) (st : StatEnv)
    (acc : Finset Netns × Bool) (path : String) : Finset Netns × Bool :=
  match st path with
  | none => acc
  | some nsStat =>
    if nsStat.st_mode &&& IN_ISDIR = IN_ISDIR ∨ nsStat.st_ino = defaultIno then acc
    else
      if Netns.Named path ∈ acc.1 then acc
      else (insert (Netns.Named path) acc.1, true)

/-- `NetnsWatcher::insert` (netns.rs lines 217-244): fold the batch of
paths over `insertStep` starting from the current set with the changed
flag down, then bump the counter once iff the flag was raised. -/
def NetnsWatcher.insert (defaultIno : Nat) (st : StatEnv) (paths : List String)
    (s : WatcherState) : WatcherState :=
  let r := paths.foldl (NetnsWatcher.insertStep defaultIno st) (s.set, false)
  { set := r.1, counter := if r.2 then wrappingAdd1 s.counter else s.counter }

/-- One iteration of the loop in `NetnsWatcher::remove` (netns.rs lines
250-258): remove `Named(path)` when present, raising the changed flag. -/
def NetnsWatcher.removeStep (acc : Finset Netns × Bool) (path : String) :
    Finset Netns × Bool :=
  if Netns.Named path ∈ acc.1 then (acc.1.erase (Netns.Named path), true) else acc

/-- `NetnsWatcher::remove` (netns.rs lines 246-263). -/
def NetnsWatcher.remove (paths : List String) (s : WatcherState) : WatcherState :=
  let r := paths.foldl NetnsWatcher.removeStep (s.set, false)
  { set := r.1, counter := if r.2 then wrappingAdd1 s.counter else s.counter }

/-- `notify::event::RenameMode`. -/
inductive RenameMode where
  | Any | To | From | Both | Other
deriving DecidableEq

/-- `notify::event::CreateKind`. -/
inductive CreateKind where
  | Any | File | Folder | Other
deriving DecidableEq

/-- `notify::event::RemoveKind`. -/
inductive RemoveKind where
  | Any | File | Folder | Other
deriving DecidableEq

/-- `notify::event::ModifyKind`; only the `Name` variant carries the data
netns.rs inspects. -/
inductive ModifyKind where
  | Any
  | Data
  | Metadata
  | Name : RenameMode → ModifyKind
  | Other
deriving DecidableEq

/-- `notify::EventKind`. -/
inductive EventKind where
  | Any
  | Access
  | Create : CreateKind → EventKind
  | Modify : ModifyKind → EventKind
  | Remove : RemoveKind → EventKind
  | Other
deriving DecidableEq

/-- A raw filesystem event: its kind and reported paths. -/
structure Event where
  kind : EventKind
  paths : List String
deriving DecidableEq

/-- One turn of the reconciliation loop in `NetnsWatcher::run` (netns.rs
lines 182-203), applied to one decoded event. The second component is
true exactly when the loop called `notif.notify_waiters()` for this
event. Note the rename-both arm (lines 189-195): the code removes
`event.paths[1]` and then inserts `event.paths[0]`. -/
def NetnsWatcher.processEvent (defaultIno : Nat) (st : StatEnv) (ev : Event)
    (s : WatcherState) : WatcherState × Bool :=
  match ev.kind with
  | EventKind.Create CreateKind.Any
  | EventKind.Create CreateKind.File
  | EventKind.Modify (ModifyKind.Name RenameMode.To) =>
    (NetnsWatcher.insert defaultIno st ev.paths s, true)
  | EventKind.Modify (ModifyKind.Name RenameMode.Both) =>
    match ev.paths with
    | [oldPath, newPath] =>
      (NetnsWatcher.insert defaultIno st [oldPath]
        (NetnsWatcher.remove [newPath] s), true)
    | _ => (s, false)
  | EventKind.Remove RemoveKind.Any
  | EventKind.Remove RemoveKind.File
  | EventKind.Modify (ModifyKind.Name RenameMode.From) =>
    (NetnsWatcher.remove ev.paths s, true)
  | _ => (s, false)

/-- An event is of a kind the reconciliation loop acts on: the create,
rename and remove arms of the match in `NetnsWatcher::run`, with the
rename-both arm further requiring exactly two reported paths. -/
def Event.recognizedKind (ev : Event) : Bool :=
  match ev.kind with
  | EventKind.Create CreateKind.Any
  | EventKind.Create CreateKind.File
  | EventKind.Modify (ModifyKind.Name RenameMode.To)
  | EventKind.Modify (ModifyKind.Name RenameMode.From)
  | EventKind.Remove RemoveKind.Any
  | EventKind.Remove RemoveKind.File => true
  | EventKind.Modify (ModifyKind.Name RenameMode.Both) => ev.paths.length == 2
  | _ => false

/-- `true` for `Except.ok`, `false` for `Except.error`. -/
def isOkExcept {e a : Type} : Except e a → Bool
  | Except.ok _ => true
  | Except.error _ => false

/-- `NetnsWatcher::new` (netns.rs lines 142-159): stats the default
namespace path (propagating a failure as `Error::Nix`), builds the
initial snapshot from `Netns::list` with counter 0, spawns the
reconciliation task and returns the watcher handle immediately. The
spawned task's `JoinHandle` is discarded (`let _handle`), so nothing of
`run`'s outcome reaches the caller; accordingly `new` takes no
event-subscription environment at all. The returned pair is the captured
default inode and the initial snapshot. -/
def NetnsWatcher.new (st : StatEnv) (dirEntries : Option (List String)) :
    Except Error (Nat × WatcherState) :=
  match st DEAULT_NETNS_PATH with
  | none => Except.error Error.NixErr
  | some defaultStat =>
    Except.ok (defaultStat.st_ino, ⟨(Netns.list st dirEntries).toFinset, 0⟩)

/-- Outcomes of the subscription-establishment steps at the top of
`NetnsWatcher::run` (netns.rs lines 161-175): `INotifyWatcher::new`,
the `is_dir` test on the namespace directory, `create_dir`, and
`file_watcher.watch`. -/
structure SubscriptionEnv where
  inotifyOk : Bool
  netnsPathIsDir : Bool
  createDirOk : Bool
  watchOk : Bool
deriving DecidableEq

/-- The setup phase of `NetnsWatcher::run` (netns.rs lines 161-175),
executed inside the spawned background task: inotify watcher creation
(`Error::Notify` on failure), directory creation when the namespace
directory is absent (`Error::Io` on failure), and watch registration
(`Error::Notify` on failure). -/
def NetnsWatcher.runSetup (env : SubscriptionEnv) : Except Error Unit :=
  if env.inotifyOk = false then Except.error Error.NotifyErr
  else if env.netnsPathIsDir = false ∧ env.createDirOk = false then
    Except.error (Error.IoErr IoErrorKind.otherErr)
  else if env.watchOk = false then Except.error Error.NotifyErr
  else Except.ok ()

/-- The initial snapshot built by `NetnsWatcher::new` (netns.rs line 146):
the hash set of `Netns::list` with counter 0. -/
def NetnsWatcher.initialState (st : StatEnv) (dirEntries : Option (List String)) :
    WatcherState :=
  ⟨(Netns.list st dirEntries).toFinset, 0⟩

/-- The watcher states reachable from a given initial snapshot by the
reconciliation loop: each step processes one raw event under some stat
environment. -/
inductive NetnsWatcher.Reachable (defaultIno : Nat) (init : WatcherState) :
    WatcherState → Prop where
  | base : NetnsWatcher.Reachable defaultIno init init
  | step (st : StatEnv) (ev : Event) (s : WatcherState) :
      NetnsWatcher.Reachable defaultIno init s →
      NetnsWatcher.Reachable defaultIno init
        (NetnsWatcher.processEvent defaultIno st ev s).1

/-- One read of the long-poll loop in `NetnsWatcherStream::poll` (netns.rs
lines 281-289) applied to the snapshot it observed: `some` models an
immediate return of that snapshot, `none` models falling through to
`watcher.wait().await`. -/
def NetnsWatcherStream.pollStep (modificationIndex : Option Nat)
    (snap : Finset Netns × Nat) : Option (Finset Netns × Nat) :=
  if modificationIndex ≠ some snap.2 then some snap else none

/-- The items a `NetnsWatcherStream` yields while observing a given
sequence of snapshot reads, starting from a given last-yielded
modification index. A read whose counter differs from the last-yielded
index is yielded and `poll_next` re-arms the future with that counter
(netns.rs lines 296-308); otherwise the stream waits and re-reads. -/
def NetnsWatcherStream.run (modificationIndex : Option Nat) :
    List (Finset Netns × Nat) → List (Finset Netns × Nat)
  | [] => []
  | snap :: rest =>
    if modificationIndex ≠ some snap.2 then
      snap :: NetnsWatcherStream.run (some snap.2) rest
    else
      NetnsWatcherStream.run modificationIndex rest

/-- A stat environment where every path resolves to a plain file with
inode 1; used for concrete instantiations. -/
def statEnvAll : StatEnv := fun _ => some ⟨1, 0⟩

/-- A stat environment where every stat fails. -/
def statEnvNone : StatEnv := fun _ => none

/-- Concrete path name used in instantiations. -/
def pathA : String := "a"

/-- Concrete path name used in instantiations. -/
def pathB : String := "b"

/-- Concrete path name used in instantiations. -/
def pathC : String := "c"

/-- Stat environment after a rename of `pathA` to `pathB`: the old name
no longer stats, the new name is a plain file with inode 7. -/
def statEnvRename : StatEnv := fun p => if p = pathB then some ⟨7, 0⟩ else none

/-- A rename-both event reporting `[old, new] = [pathA, pathB]`. -/
def renameEvent : Event :=
  ⟨EventKind.Modify (ModifyKind.Name RenameMode.Both), [pathA, pathB]⟩

/-- Snapshot before the rename: the default namespace plus the old name. -/
def stateBefore : WatcherState := ⟨{Netns.Default, Netns.Named pathA}, 0⟩

/-- The `st_mode` of a real directory: `S_IFDIR` plus permissions 0755. -/
def dirMode : Nat := 0o040755

/-- Stat environment for a scan of the namespace directory containing a
subdirectory named `pathC`: the default path stats to inode 1, the
subdirectory stats to inode 7 with a real directory mode. -/
def statEnvWithDir : StatEnv := fun p =>
  if p = DEAULT_NETNS_PATH then some ⟨1, 0⟩
  else if p = pathJoin NETNS_PATH pathC then some ⟨7, dirMode⟩
  else none

/-- A create event for a path whose stat fails. -/
def noChangeEvent : Event := ⟨EventKind.Create CreateKind.File, [pathC]⟩

/-- File-open environment in which only the process's own namespace
handle exists; every other path is missing. -/
def openEnvMissing : String → Except IoErrorKind Unit :=
  fun p => if p = SELF_NETNS_PATH then Except.ok () else Except.error IoErrorKind.notFound

/-- `insertStep` either leaves the accumulator untouched or inserts the
path's `Named` value, which was absent, and raises the flag. -/
lemma insertStep_cases (di : Nat) (st : StatEnv) (acc : Finset Netns × Bool)
    (p : String) :
    NetnsWatcher.insertStep di st acc p = acc ∨
    (Netns.Named p ∉ acc.1 ∧
      NetnsWatcher.insertStep di st acc p = (insert (Netns.Named p) acc.1, true)) := by
  unfold NetnsWatcher.insertStep
  cases st p with
  | none => exact Or.inl rfl
  | some nsStat =>
    by_cases h1 : nsStat.st_mode &&& IN_ISDIR = IN_ISDIR ∨ nsStat.st_ino = di
    · simp [h1]
    · by_cases h2 : Netns.Named p ∈ acc.1
      · simp [h1, h2]
      · simp [h1, h2]

/-- Folding a batch over `insertStep` only grows the set, and the changed
flag ends raised exactly when it started raised or the set actually
changed. -/
lemma insert_fold_spec (di : Nat) (st : StatEnv) (paths : List String) :
    ∀ (A : Finset Netns) (b : Bool),
      A ⊆ (paths.foldl (NetnsWatcher.insertStep di st) (A, b)).1 ∧
      ((paths.foldl (NetnsWatcher.insertStep di st) (A, b)).2 = true ↔
        b = true ∨ (paths.foldl (NetnsWatcher.insertStep di st) (A, b)).1 ≠ A) := by
  induction paths with
  | nil =>
    intro A b
    refine ⟨fun x hx => hx, ?_⟩
    simp
  | cons p rest ih =>
    intro A b
    rcases insertStep_cases di st (A, b) p with h | ⟨hmem, h⟩
    · rw [List.foldl_cons, h]; exact ih A b
    · rw [List.foldl_cons, h]
      obtain ⟨hsub, hflag⟩ := ih (insert (Netns.Named p) A) true
      have hmemr : Netns.Named p ∈
          (rest.foldl (NetnsWatcher.insertStep di st) (insert (Netns.Named p) A, true)).1 :=
        hsub (Finset.mem_insert_self _ _)
      have hflag2 : (rest.foldl (NetnsWatcher.insertStep di st)
          (insert (Netns.Named p) A, true)).2 = true := hflag.mpr (Or.inl rfl)
      refine ⟨fun x hx => hsub (Finset.mem_insert_of_mem hx), ?_⟩
      constructor
      · intro _
        exact Or.inr (fun hEq => hmem (hEq ▸ hmemr))
      · intro _
        exact hflag2

/-- `removeStep` either leaves the accumulator untouched or erases the
path's `Named` value, which was present, and raises the flag. -/
lemma removeStep_cases (acc : Finset Netns × Bool) (p : String) :
    NetnsWatcher.removeStep acc p = acc ∨
    (Netns.Named p ∈ acc.1 ∧
      NetnsWatcher.removeStep acc p = (acc.1.erase (Netns.Named p), true)) := by
  unfold NetnsWatcher.removeStep
  by_cases h : Netns.Named p ∈ acc.1 <;> simp [h]

/-- Folding a batch over `removeStep` only shrinks the set, and the
changed flag ends raised exactly when it started raised or the set
actually changed. -/
lemma remove_fold_spec (paths : List String) :
    ∀ (A : Finset Netns) (b : Bool),
      (paths.foldl NetnsWatcher.removeStep (A, b)).1 ⊆ A ∧
      ((paths.foldl NetnsWatcher.removeStep (A, b)).2 = true ↔
        b = true ∨ (paths.foldl NetnsWatcher.removeStep (A, b)).1 ≠ A) := by
  induction paths with
  | nil =>
    intro A b
    refine ⟨fun x hx => hx, ?_⟩
    simp
  | cons p rest ih =>
    intro A b
    rcases removeStep_cases (A, b) p with h | ⟨hmem, h⟩
    · rw [List.foldl_cons, h]; exact ih A b
    · rw [List.foldl_cons, h]
      obtain ⟨hsub, hflag⟩ := ih (A.erase (Netns.Named p)) true
      have hout : Netns.Named p ∉
          (rest.foldl NetnsWatcher.removeStep (A.erase (Netns.Named p), true)).1 :=
        fun hc => Finset.not_mem_erase _ _ (hsub hc)
      have hflag2 : (rest.foldl NetnsWatcher.removeStep
          (A.erase (Netns.Named p), true)).2 = true := hflag.mpr (Or.inl rfl)
      refine ⟨fun x hx => Finset.erase_subset _ _ (hsub hx), ?_⟩
      constructor
      · intro _
        exact Or.inr (fun hEq => hout (by rw [hEq]; exact hmem))
      · intro _
        exact hflag2

/-- Folding a batch over `removeStep` never erases `Netns.Default`:
only `Named` values are removed. -/
lemma remove_fold_default (paths : List String) :
    ∀ (acc : Finset Netns × Bool), Netns.Default ∈ acc.1 →
      Netns.Default ∈ (paths.foldl NetnsWatcher.removeStep acc).1 := by
  induction paths with
  | nil => exact fun acc h => h
  | cons p rest ih =>
    intro acc h
    rw [List.foldl_cons]
    apply ih
    rcases removeStep_cases acc p with he | ⟨_, he⟩
    · rw [he]; exact h
    · rw [he]
      exact Finset.mem_erase_of_ne_of_mem (by simp) h

/-- `Netns::list` always includes the default namespace. -/
lemma default_mem_list (st : StatEnv) (de : Option (List String)) :
    Netns.Default ∈ Netns.list st de := by
  unfold Netns.list
  cases st DEAULT_NETNS_PATH with
  | none => simp
  | some ds =>
    cases de with
    | none => simp
    | some entries => simp

/-- `NetnsWatcher.insert` never loses members. -/
lemma insert_mem_mono (di : Nat) (st : StatEnv) (paths : List String)
    (s : WatcherState) (x : Netns) (hx : x ∈ s.set) :
    x ∈ (NetnsWatcher.insert di st paths s).set :=
  (insert_fold_spec di st paths s.set false).1 hx

/-- `NetnsWatcher.remove` never loses the default namespace. -/
lemma remove_default_mem (paths : List String) (s : WatcherState)
    (h : Netns.Default ∈ s.set) :
    Netns.Default ∈ (NetnsWatcher.remove paths s).set :=
  remove_fold_default paths (s.set, false) h

/-- Processing any raw event preserves membership of the default
namespace in the snapshot set. -/
lemma processEvent_default_mem (di : Nat) (st : StatEnv) (ev : Event)
    (s : WatcherState) (hx : Netns.Default ∈ s.set) :
    Netns.Default ∈ (NetnsWatcher.processEvent di st ev s).1.set := by
  unfold NetnsWatcher.processEvent
  rcases ev with ⟨k, ps⟩
  cases k with
  | Create ck =>
    cases ck
    · exact insert_mem_mono _ _ _ _ _ hx
    · exact insert_mem_mono _ _ _ _ _ hx
    · exact hx
    · exact hx
  | Modify mk =>
    cases mk with
    | Name rm =>
      cases rm with
      | Any => exact hx
      | To => exact insert_mem_mono _ _ _ _ _ hx
      | From => exact remove_default_mem _ _ hx
      | Both =>
        match ps with
        | [] => exact hx
        | [p0] => exact hx
        | [p0, p1] =>
          exact insert_mem_mono _ _ _ _ _ (remove_default_mem _ _ hx)
        | p0 :: p1 :: p2 :: rest => exact hx
      | Other => exact hx
    | Any => exact hx
    | Data => exact hx
    | Metadata => exact hx
    | Other => exact hx
  | Remove rk =>
    cases rk
    · exact remove_default_mem _ _ hx
    · exact remove_default_mem _ _ hx
    · exact hx
    · exact hx
  | Any => exact hx
  | Access => exact hx
  | Other => exact hx

/-- The first item the stream yields after re-arming with counter `c`
always carries a counter different from `c`. -/
lemma run_head_ne (snaps : List (Finset Netns × Nat)) :
    ∀ (c : Nat) (x : Finset Netns × Nat),
      (NetnsWatcherStream.run (some c) snaps).head? = some x → x.2 ≠ c := by
  induction snaps with
  | nil =>
    intro c x h
    simp [NetnsWatcherStream.run] at h
  | cons snap rest ih =>
    intro c x h
    by_cases hc : c = snap.2
    · subst hc
      rw [NetnsWatcherStream.run, if_neg (by simp)] at h
      exact ih snap.2 x h
    · rw [NetnsWatcherStream.run, if_pos (by simp [hc])] at h
      simp only [List.head?_cons, Option.some.injEq] at h
      subst h
      exact fun hcontra => hc hcontra.symm

/-- Successive items of a stream run carry pairwise different counters at
adjacent positions. -/
lemma run_chain (snaps : List (Finset Netns × Nat)) :
    ∀ (mi : Option Nat),
      List.Chain' (fun a b : Finset Netns × Nat => a.2 ≠ b.2)
        (NetnsWatcherStream.run mi snaps) := by
  induction snaps with
  | nil =>
    intro mi
    simp [NetnsWatcherStream.run]
  | cons snap rest ih =>
    intro mi
    by_cases hc : mi = some snap.2
    · rw [NetnsWatcherStream.run, if_neg (by simp [hc])]
      exact ih mi
    · rw [NetnsWatcherStream.run, if_pos hc]
      rw [List.chain'_cons']
      refine ⟨?_, ih (some snap.2)⟩
      intro y hy
      have := run_head_ne rest snap.2 y (Option.mem_def.mp hy)
      exact fun hcontra => this hcontra.symm

/-- Claim C1: the claim states that a rename-both event with paths
`[old, new]` leaves `old` absent, `new` present and bumps the counter
exactly once. Evaluating the embedded code at a concrete failing input
shows the opposite: with the snapshot containing `old` and the
post-rename filesystem (stat of `old` fails, `new` is a plain file with
a non-default inode), the code leaves `old` present, `new` absent and
the counter untouched, because netns.rs lines 191-192 remove
`event.paths[1]` (the new name) and insert `event.paths[0]` (the old
name) — the reverse of remove-old-then-insert-new. -/
theorem rename_both_code_divergence :
    Netns.Named pathA ∈
      (NetnsWatcher.processEvent 99 statEnvRename renameEvent stateBefore).1.set ∧
    Netns.Named pathB ∉
      (NetnsWatcher.processEvent 99 statEnvRename renameEvent stateBefore).1.set ∧
    (NetnsWatcher.processEvent 99 statEnvRename renameEvent stateBefore).1.counter =
      stateBefore.counter := by
  decide

/-- Claim C2: for every batch of candidate paths fed to the watcher's
insert or remove step, the modification counter increases by exactly one
(with wraparound) when the batch changed set membership and is unchanged
when the batch produced no net change; the whole batch produces at most
one bump. -/
theorem insert_remove_counter_bump (di : Nat) (st : StatEnv) (paths : List String)
    (s : WatcherState) :
    ((NetnsWatcher.insert di st paths s).set ≠ s.set →
      (NetnsWatcher.insert di st paths s).counter = (s.counter + 1) % USIZE_MOD) ∧
    ((NetnsWatcher.insert di st paths s).set = s.set →
      (NetnsWatcher.insert di st paths s).counter = s.counter) ∧
    ((NetnsWatcher.remove paths s).set ≠ s.set →
      (NetnsWatcher.remove paths s).counter = (s.counter + 1) % USIZE_MOD) ∧
    ((NetnsWatcher.remove paths s).set = s.set →
      (NetnsWatcher.remove paths s).counter = s.counter) := by
  obtain ⟨hsubI, hflagI⟩ := insert_fold_spec di st paths s.set false
  obtain ⟨hsubR, hflagR⟩ := remove_fold_spec paths s.set false
  refine ⟨?_, ?_, ?_, ?_⟩
  · intro hne
    have hf : (paths.foldl (NetnsWatcher.insertStep di st) (s.set, false)).2 = true :=
      hflagI.mpr (Or.inr hne)
    show (if (paths.foldl (NetnsWatcher.insertStep di st) (s.set, false)).2 then
        wrappingAdd1 s.counter else s.counter) = (s.counter + 1) % USIZE_MOD
    rw [hf]
    simp [wrappingAdd1]
  · intro heq
    have hf : (paths.foldl (NetnsWatcher.insertStep di st) (s.set, false)).2 = false := by
      cases hcase : (paths.foldl (NetnsWatcher.insertStep di st) (s.set, false)).2
      · rfl
      · rcases hflagI.mp hcase with h | h
        · exact absurd h (by simp)
        · exact absurd heq h
    show (if (paths.foldl (NetnsWatcher.insertStep di st) (s.set, false)).2 then
        wrappingAdd1 s.counter else s.counter) = s.counter
    rw [hf]
    simp
  · intro hne
    have hf : (paths.foldl NetnsWatcher.removeStep (s.set, false)).2 = true :=
      hflagR.mpr (Or.inr hne)
    show (if (paths.foldl NetnsWatcher.removeStep (s.set, false)).2 then
        wrappingAdd1 s.counter else s.counter) = (s.counter + 1) % USIZE_MOD
    rw [hf]
    simp [wrappingAdd1]
  · intro heq
    have hf : (paths.foldl NetnsWatcher.removeStep (s.set, false)).2 = false := by
      cases hcase : (paths.foldl NetnsWatcher.removeStep (s.set, false)).2
      · rfl
      · rcases hflagR.mp hcase with h | h
        · exact absurd h (by simp)
        · exact absurd heq h
    show (if (paths.foldl NetnsWatcher.removeStep (s.set, false)).2 then
        wrappingAdd1 s.counter else s.counter) = s.counter
    rw [hf]
    simp

/-- Witness for C2: inserting a fresh name bumps the counter once;
removing an absent name leaves it unchanged. -/
theorem insert_remove_counter_bump_witness :
    (NetnsWatcher.insert 0 statEnvAll [pathA] ⟨∅, 0⟩).counter = (0 + 1) % USIZE_MOD ∧
    (NetnsWatcher.remove [pathA] ⟨∅, 0⟩).counter = 0 :=
  ⟨(insert_remove_counter_bump 0 statEnvAll [pathA] ⟨∅, 0⟩).1 (by decide),
   (insert_remove_counter_bump 0 statEnvAll [pathA] ⟨∅, 0⟩).2.2.2 (by decide)⟩

/-- Claim C3 counterexample: the claim states that an event-subscription
establishment failure makes `NetnsWatcher::new` return an error. At a
concrete input where inotify watcher creation fails (so `runSetup`,
which runs in the spawned background task, errors) but the default
namespace stats fine, `new` still returns a watcher handle. -/
theorem new_ok_despite_subscription_failure :
    NetnsWatcher.runSetup ⟨false, true, true, true⟩ = Except.error Error.NotifyErr ∧
    isOkExcept (NetnsWatcher.new statEnvAll none) = true :=
  ⟨rfl, rfl⟩

/-- Claim C3 (amended): a failure to stat the default namespace path
makes `NetnsWatcher::new` return an error, and success makes it return a
watcher handle regardless of the subscription environment; failures to
establish the event subscription (inotify creation, directory creation,
watch registration) instead make the spawned background task's setup
return an error, terminating that task without reaching `new`'s caller. -/
theorem construction_error_propagation (st : StatEnv) (de : Option (List String))
    (env : SubscriptionEnv) :
    (st DEAULT_NETNS_PATH = none →
      NetnsWatcher.new st de = Except.error Error.NixErr) ∧
    (st DEAULT_NETNS_PATH ≠ none → isOkExcept (NetnsWatcher.new st de) = true) ∧
    ((env.inotifyOk = false ∨ (env.netnsPathIsDir = false ∧ env.createDirOk = false) ∨
        env.watchOk = false) →
      isOkExcept (NetnsWatcher.runSetup env) = false) := by
  refine ⟨?_, ?_, ?_⟩
  · intro h
    unfold NetnsWatcher.new
    rw [h]
  · intro h
    unfold NetnsWatcher.new
    cases hc : st DEAULT_NETNS_PATH with
    | none => exact absurd hc h
    | some ds => rfl
  · intro h
    rcases env with ⟨i, d, c, w⟩
    cases i <;> cases d <;> cases c <;> cases w <;>
      simp_all [NetnsWatcher.runSetup, isOkExcept]

/-- Witness for the amended C3: a missing default namespace fails `new`,
and a failing watch registration fails the background task's setup. -/
theorem construction_error_propagation_witness :
    NetnsWatcher.new statEnvNone none = Except.error Error.NixErr ∧
    isOkExcept (NetnsWatcher.runSetup ⟨true, true, true, false⟩) = false :=
  ⟨(construction_error_propagation statEnvNone none ⟨true, true, true, false⟩).1 rfl,
   (construction_error_propagation statEnvNone none ⟨true, true, true, false⟩).2.2
     (Or.inr (Or.inr rfl))⟩

/-- Claim C4: over any sequence of observed snapshots, a change stream
never yields the same (set, counter) pair twice in a row, and after
re-arming with counter `c` the next yielded item's counter differs
from `c`. -/
theorem stream_no_consecutive_duplicates (mi : Option Nat)
    (snaps : List (Finset Netns × Nat)) :
    List.Chain' (fun a b : Finset Netns × Nat => a ≠ b)
      (NetnsWatcherStream.run mi snaps) ∧
    ∀ (c : Nat) (x : Finset Netns × Nat),
      (NetnsWatcherStream.run (some c) snaps).head? = some x → x.2 ≠ c := by
  refine ⟨?_, run_head_ne snaps⟩
  exact List.Chain'.imp (fun a b hab hEq => hab (by rw [hEq])) (run_chain snaps mi)

/-- Witness for C4: a stream re-armed at counter 0 that observes a
snapshot with counter 1 yields it, and its counter differs from 0. -/
theorem stream_no_consecutive_duplicates_witness :
    ((({Netns.Default} : Finset Netns), 1) : Finset Netns × Nat).2 ≠ 0 :=
  (stream_no_consecutive_duplicates (some 0)
      [(({Netns.Default} : Finset Netns), 1)]).2 0 ({Netns.Default}, 1) (by rfl)

/-- Claim C5: a change stream created before any change (last-yielded
counter `none`) resolves its first poll immediately from the in-memory
snapshot — `pollStep` yields rather than waits — and the first item of
the run is that initial snapshot. -/
theorem stream_first_item_immediate (snap : Finset Netns × Nat)
    (rest : List (Finset Netns × Nat)) :
    NetnsWatcherStream.pollStep none snap = some snap ∧
    (NetnsWatcherStream.run none (snap :: rest)).head? = some snap := by
  constructor
  · unfold NetnsWatcherStream.pollStep
    rw [if_pos (by simp)]
  · rw [NetnsWatcherStream.run, if_pos (by simp)]
    rfl

/-- Claim C6: the claim states that `Netns::list` excludes entries that
are directories. Evaluating the embedded code at a concrete failing
input shows otherwise: an entry whose stat mode is a real directory mode
(`S_IFDIR` plus 0755) is included in the listing, because netns.rs line
81 tests `st_mode` against `IN_ISDIR` (0x40000000), an inotify
event-mask bit that no stat mode contains. -/
theorem list_includes_directory_entry :
    isRealDirMode dirMode = true ∧
    Netns.Named (pathJoin NETNS_PATH pathC) ∈
      Netns.list statEnvWithDir (some [pathC]) := by
  decide

/-- Claim C7: entering a namespace whose target path does not exist
fails with the OS not-found error and executes no namespace-switch
syscall, so the process's namespace is left unchanged. -/
theorem enter_missing_target (openFile : String → Except IoErrorKind Unit)
    (unshareOk setnsOk : Bool) (n : Netns)
    (hself : openFile SELF_NETNS_PATH = Except.ok ())
    (htarget : openFile n.path = Except.error IoErrorKind.notFound) :
    Netns.enter openFile unshareOk setnsOk n =
      (Except.error (Error.IoErr IoErrorKind.notFound), []) := by
  unfold Netns.enter
  rw [hself, htarget]

/-- Witness for C7: entering a named namespace in an environment where
only the process's own handle exists fails with not-found and an empty
syscall trace. -/
theorem enter_missing_target_witness :
    Netns.enter openEnvMissing true true (Netns.Named pathA) =
      (Except.error (Error.IoErr IoErrorKind.notFound), []) :=
  enter_missing_target openEnvMissing true true (Netns.Named pathA) (by rfl) (by rfl)

/-- Claim C8 counterexample: the claim states that waiters are woken iff
the processed event changed the snapshot. At a concrete input — a create
event for a path whose stat fails — the snapshot is unchanged yet
`notify_waiters` is still called. -/
theorem notify_without_change :
    (NetnsWatcher.processEvent 0 statEnvNone noChangeEvent ⟨{Netns.Default}, 0⟩).2 = true ∧
    (NetnsWatcher.processEvent 0 statEnvNone noChangeEvent ⟨{Netns.Default}, 0⟩).1 =
      ⟨{Netns.Default}, 0⟩ :=
  ⟨rfl, rfl⟩

/-- Claim C8 (amended): after processing one raw event, waiters are
woken exactly when the event is of a recognized kind (create-any/file,
rename-to/from, remove-any/file, or rename-both with exactly two
reported paths), regardless of whether the snapshot changed; whether a
change occurred is recorded by the modification counter instead. -/
theorem notify_iff_recognized_event (di : Nat) (st : StatEnv) (ev : Event)
    (s : WatcherState) :
    (NetnsWatcher.processEvent di st ev s).2 = ev.recognizedKind := by
  rcases ev with ⟨k, ps⟩
  cases k with
  | Create ck => cases ck <;> rfl
  | Modify mk =>
    cases mk with
    | Name rm =>
      cases rm with
      | Any => rfl
      | To => rfl
      | From => rfl
      | Other => rfl
      | Both => rcases ps with _ | ⟨p0, _ | ⟨p1, _ | ⟨p2, rest⟩⟩⟩ <;> rfl
    | Any => rfl
    | Data => rfl
    | Metadata => rfl
    | Other => rfl
  | Remove rk => cases rk <;> rfl
  | Any => rfl
  | Access => rfl
  | Other => rfl

/-- Claim C9: `path()` is a deterministic function of the identity:
`Default` resolves to the fixed default-namespace path, and `Named name`
resolves to the well-known namespace directory joined with `name`, which
for a relative name is literally `<namespace-dir>/<name>`. -/
theorem path_deterministic_resolution :
    Netns.path Netns.Default = DEAULT_NETNS_PATH ∧
    (∀ name, Netns.path (Netns.Named name) = pathJoin NETNS_PATH name) ∧
    (∀ name, isAbsolutePath name = false →
      Netns.path (Netns.Named name) = NETNS_PATH ++ SLASH ++ name) := by
  refine ⟨rfl, fun name => rfl, fun name h => ?_⟩
  show (if isAbsolutePath name = true then name else NETNS_PATH ++ SLASH ++ name) =
    NETNS_PATH ++ SLASH ++ name
  rw [h]
  simp

/-- Witness for C9: a concrete relative name resolves to the namespace
directory, a slash, then the name. -/
theorem path_deterministic_resolution_witness :
    Netns.path (Netns.Named pathA) = NETNS_PATH ++ SLASH ++ pathA :=
  path_deterministic_resolution.2.2 pathA (by rfl)

/-- Claim C10: every watcher state reachable from the initial snapshot
by processing raw events keeps `Netns.Default` in its set: the initial
set built from `Netns::list` contains it, insertion only adds `Named`
values, and removal only removes `Named` values. -/
theorem default_always_in_snapshot (di : Nat) (st0 : StatEnv)
    (de : Option (List String)) (s : WatcherState)
    (h : NetnsWatcher.Reachable di (NetnsWatcher.initialState st0 de) s) :
    Netns.Default ∈ s.set := by
  induction h with
  | base =>
    show Netns.Default ∈ (Netns.list st0 de).toFinset
    exact List.mem_toFinset.mpr (default_mem_list st0 de)
  | step st ev s' hprev ih => exact processEvent_default_mem di st ev s' ih

/-- Witness for C10: the initial snapshot itself contains the default
namespace. -/
theorem default_always_in_snapshot_witness :
    Netns.Default ∈ (NetnsWatcher.initialState statEnvNone none).set :=
  default_always_in_snapshot 0 statEnvNone none
    (NetnsWatcher.initialState statEnvNone none) NetnsWatcher.Reachable.base

end Networker
